import Mathlib

/-!
Verification development for the Codex_Pianist repository.

The Python sources are shallowly embedded in Lean:
* numbers are modelled by `ℤ`/`ℚ` (Python ints are exact; Python binary64
  floats are idealised as rationals — every concrete computation appearing
  in the settled claims is exact in both semantics);
* effectful actuator calls are modelled by explicit environments fixing the
  boolean result of each hardware call, plus event traces recording every
  call issued, in order;
* Python `round` (banker's rounding, half to even) is modelled by `pyRound`;
* log statements and sleep/hold durations are not observable in any claim
  and are not recorded in traces.
-/

namespace CodexPianist

/-! ### Strike-value computation (`continuous_practice.py` lines 89–92) -/

/-- Python `round(x)` for a real argument: round half to even.
`Rat.floor` is used (rather than the `⌊·⌋` of `Int.instFloorRing`) so the
definition evaluates by kernel reduction where possible. -/
def pyRound (q : ℚ) : ℤ :=
  if q - Rat.floor q < 1/2 then Rat.floor q
  else if 1/2 < q - Rat.floor q then Rat.floor q + 1
  else if Rat.floor q % 2 = 0 then Rat.floor q else Rat.floor q + 1

/-- Clamp to [0,1]; the source inlines this as `max(0.0, min(1.0, down_fraction))`
(`continuous_practice.py` line 90).  Stated separately because the spec names
it `clamp01`. -/
def clamp01 (x : ℚ) : ℚ := max 0 (min 1 x)

/-- `_compute_strike_value` from `continuous_practice.py` lines 89–92 (an
identical copy lives in `four_finger_note_test.py` lines 89–92): clamp the
fraction, interpolate from `open_value` toward `close_reference`, round.
(`int(...)` applied to the `int` result of Python `round` is the identity.) -/
def compute_strike_value (open_value close_reference : ℤ) (down_fraction : ℚ) : ℤ :=
  let d := max 0 (min 1 down_fraction)
  pyRound ((open_value : ℚ) + ((close_reference : ℚ) - (open_value : ℚ)) * d)

/-! ### CLI value parsing (`continuous_practice.py` lines 27–41)

Strings are modelled as `List Char`.  The model covers the ASCII fragment the
flags use: `str.strip` strips ASCII whitespace, `int(...)` accepts an optional
sign followed by decimal digits, `float(...)` accepts the usual decimal /
scientific literals.  (CPython additionally accepts unicode digits, digit
group underscores and `inf`/`nan`; those inputs are outside the modelled
character domain — `nan`/`inf` have no image in `ℚ` at all.)  All `ValueError`
paths are collapsed to `none`. -/

/-- ASCII whitespace recognised by Python `str.strip()`. -/
def isPySpace (c : Char) : Bool :=
  c = ' ' || c = '\t' || c = '\n' || c = '\r' || c = '\x0B' || c = '\x0C'

/-- Python `text.split(",")`: splitting the empty string yields one empty
field, and separators delimit (possibly empty) fields. -/
def splitOnComma : List Char → List (List Char)
  | [] => [[]]
  | c :: rest =>
    let tail := splitOnComma rest
    if c = ',' then [] :: tail
    else
      match tail with
      | [] => [[c]]
      | f :: fs => (c :: f) :: fs

/-- Python `s.strip()` on the modelled ASCII fragment. -/
def pyStrip (s : List Char) : List Char :=
  ((s.dropWhile isPySpace).reverse.dropWhile isPySpace).reverse

/-- `[p.strip() for p in text.split(",") if p.strip()]` — shared by
`_parse_joint_targets` and `_parse_finger_indices` (lines 28 and 35). -/
def split_fields (s : List Char) : List (List Char) :=
  ((splitOnComma s).map pyStrip).filter (fun p => p ≠ [])

/-- Value of a digit string (most significant first). -/
def digitsVal (s : List Char) : ℕ :=
  s.foldl (fun a c => 10 * a + (c.toNat - '0'.toNat)) 0

/-- A nonempty run of decimal digits, or failure. -/
def parseDigits (s : List Char) : Option ℕ :=
  if s ≠ [] ∧ s.all Char.isDigit then some (digitsVal s) else none

/-- Python `int(p)` on an already-stripped field: optional sign followed by
digits. -/
def pyIntOfStr (s : List Char) : Option ℤ :=
  match s with
  | '+' :: rest => (parseDigits rest).map (fun n => (n : ℤ))
  | '-' :: rest => (parseDigits rest).map (fun n => -(n : ℤ))
  | _ => (parseDigits s).map (fun n => (n : ℤ))

/-- Python `float(p)` on an already-stripped field: optional sign, decimal
mantissa (digits, possibly with a point; at least one digit), optional
exponent. -/
def pyFloatOfStr (s : List Char) : Option ℚ :=
  let signBody : ℚ × List Char :=
    match s with
    | '+' :: r => (1, r)
    | '-' :: r => (-1, r)
    | _ => (1, s)
  let sign := signBody.1
  let body := signBody.2
  let ip := body.takeWhile Char.isDigit
  let rest1 := body.dropWhile Char.isDigit
  let fpRest : List Char × List Char :=
    match rest1 with
    | '.' :: r => (r.takeWhile Char.isDigit, r.dropWhile Char.isDigit)
    | _ => ([], rest1)
  let fp := fpRest.1
  let rest2 := fpRest.2
  if ip = [] ∧ fp = [] then none
  else
    let mant : ℚ := (digitsVal ip : ℚ) + (digitsVal fp : ℚ) / 10 ^ fp.length
    match rest2 with
    | [] => some (sign * mant)
    | c :: r3 =>
      if c = 'e' ∨ c = 'E' then
        match pyIntOfStr r3 with
        | some e => some (sign * mant * 10 ^ e)
        | none => none
      else none

/-- A Python list comprehension `[f(x) for x in l]` whose body may raise:
left-to-right, first failure aborts. -/
def py_listcomp {α β : Type} (f : α → Option β) : List α → Option (List β)
  | [] => some []
  | x :: xs =>
    match f x with
    | none => none
    | some y =>
      match py_listcomp f xs with
      | none => none
      | some ys => some (y :: ys)

/-- `_parse_joint_targets` (`continuous_practice.py` lines 27–31): exactly 6
nonempty stripped fields, each convertible by `float`. -/
def _parse_joint_targets (s : List Char) : Option (List ℚ) :=
  let parts := split_fields s
  if parts.length ≠ 6 then none else py_listcomp pyFloatOfStr parts

/-- `_parse_finger_indices` (`continuous_practice.py` lines 34–41): exactly 4
nonempty stripped fields, each convertible by `int`, each within [0,5].
Note: the source performs no distinctness check. -/
def _parse_finger_indices (s : List Char) : Option (List ℤ) :=
  let parts := split_fields s
  if parts.length ≠ 4 then none
  else
    match py_listcomp pyIntOfStr parts with
    | none => none
    | some values => if values.any (fun v => v < 0 || 5 < v) then none else some values

/-- The FingerIndexSet input condition as the claim words it: exactly 4
comma-separated *distinct* integers, each in [0,5]. -/
def claimed_finger_input (s : List Char) : Bool :=
  match py_listcomp pyIntOfStr (split_fields s) with
  | none => false
  | some vs =>
    (split_fields s).length == 4 && vs.dedup == vs && vs.all (fun v => 0 ≤ v && v ≤ 5)

/-- Concrete parser input `"3,3,3,3"`. -/
def repeated_fingers_input : List Char := ['3', ',', '3', ',', '3', ',', '3']

/-- Concrete parser input `"0,-17,-28,0,75,-45"` (the default play-center
pose flag value). -/
def center_joints_input : List Char :=
  ['0', ',', '-', '1', '7', ',', '-', '2', '8', ',', '0', ',',
   '7', '5', ',', '-', '4', '5']

/-! ### Motion orchestrator (`continuous_practice.py`, `four_finger_note_test.py`)

The two actuator drivers are external collaborators; their call results are
drawn from a `DriverEnv`: the n-th hand motor command (a Modbus register
write issued through `set_all_motors`/`move_single_motor`) succeeds iff
`hand_cmd_ok n`, the first `move_joints` call result is `arm_move_ok 0`
(cleanup moves ignore their results), and `KeyboardInterrupt` is delivered at
the top of practice-loop iteration `k` iff `interrupt_at = some k` (the spec's
"loop boundary" cancellation model).  Traces record every actuator call
issued, in order. -/

/-- One actuator-interface call, as observed by the claims. -/
inductive Event where
  | armConnect
  | armMove (pose : List ℚ)
  | armDisconnect
  | handConnect
  | handSetAll (value : ℤ)
  | handSingle (idx : ℤ) (value : ℤ)
  | handDisconnect
deriving DecidableEq

/-- Results of the external hardware calls for one routine run. -/
structure DriverEnv where
  arm_connect_ok : Bool
  hand_connect_ok : Bool
  arm_move_ok : ℕ → Bool
  hand_cmd_ok : ℕ → Bool
  interrupt_at : Option ℕ

/-- `hand.set_all_motors(value, ...)`: always issues one combined command;
result from the environment at the current hand-command counter. -/
def hand_set_all (env : DriverEnv) (n : ℕ) (value : ℤ) : Bool × ℕ × List Event :=
  (env.hand_cmd_ok n, n + 1, [Event.handSetAll value])

/-- `hand.move_single_motor(idx, value, ...)`: the driver rejects an
out-of-range index before any register write (`hand_modbus_driver.py`
lines 123–125), so the command counter does not advance in that case. -/
def hand_move_single (env : DriverEnv) (n : ℕ) (idx value : ℤ) : Bool × ℕ × List Event :=
  if idx < 0 ∨ 6 ≤ idx then (false, n, [Event.handSingle idx value])
  else (env.hand_cmd_ok n, n + 1, [Event.handSingle idx value])

/-- Step 2 of `_force_full_open` (lines 101–105): touch each target finger
individually, aborting on the first failure. -/
def _force_full_open_fingers (env : DriverEnv) (open_value : ℤ) :
    List ℤ → ℕ → Bool × ℕ × List Event
  | [], n => (true, n, [])
  | i :: rest, n =>
    let r1 := hand_move_single env n i open_value
    if r1.1 then
      let r2 := _force_full_open_fingers env open_value rest r1.2.1
      (r2.1, r2.2.1, r1.2.2 ++ r2.2.2)
    else (false, r1.2.1, r1.2.2)

/-- `_force_full_open` (`continuous_practice.py` lines 95–108, identical copy
in `four_finger_note_test.py`): all-motors open, then each finger
individually, then all-motors open again, aborting on the first failed
command. -/
def _force_full_open (env : DriverEnv) (open_value : ℤ) (finger_indices : List ℤ)
    (n : ℕ) : Bool × ℕ × List Event :=
  let r1 := hand_set_all env n open_value
  if r1.1 then
    let r2 := _force_full_open_fingers env open_value finger_indices r1.2.1
    if r2.1 then
      let r3 := hand_set_all env r2.2.1 open_value
      (r3.1, r3.2.1, r1.2.2 ++ r2.2.2 ++ r3.2.2)
    else (false, r2.2.1, r1.2.2 ++ r2.2.2)
  else (false, r1.2.1, r1.2.2)

/-- The event trace of a fully successful `_force_full_open` call. -/
def full_open_trace (open_value : ℤ) (finger_indices : List ℤ) : List Event :=
  [Event.handSetAll open_value]
    ++ finger_indices.map (fun i => Event.handSingle i open_value)
    ++ [Event.handSetAll open_value]

/-- Number of all-motor commands in a trace. -/
def count_set_all (evs : List Event) : ℕ :=
  evs.countP (fun e => match e with | Event.handSetAll _ => true | _ => false)

/-- Number of single-motor commands in a trace. -/
def count_single (evs : List Event) : ℕ :=
  evs.countP (fun e => match e with | Event.handSingle _ _ => true | _ => false)

/-- One press/release pass over the finger indices (`continuous_practice.py`
lines 178–184, `four_finger_note_test.py` lines 172–179), aborting on the
first failed command. -/
def press_release_fingers (env : DriverEnv) (strike open_value : ℤ) :
    List ℤ → ℕ → Bool × ℕ × List Event
  | [], n => (true, n, [])
  | i :: rest, n =>
    let r1 := hand_move_single env n i strike
    if r1.1 then
      let r2 := hand_move_single env r1.2.1 i open_value
      if r2.1 then
        let r3 := press_release_fingers env strike open_value rest r2.2.1
        (r3.1, r3.2.1, r1.2.2 ++ r2.2.2 ++ r3.2.2)
      else (false, r2.2.1, r1.2.2 ++ r2.2.2)
    else (false, r1.2.1, r1.2.2)

/-- How the unbounded practice loop ended. `fuelOut` marks the truncation of
the model's fuel, not a behaviour of the program (the real loop would simply
keep running). -/
inductive LoopOutcome where
  | completed
  | interrupted
  | failed
  | fuelOut
deriving DecidableEq

/-- The `while True` practice loop (`continuous_practice.py` lines 172–184):
at the top of each iteration a pending interrupt is delivered, else the
`max_loops` cutoff is checked, else one press/release pass runs.
`loop_idx` counts completed iterations, exactly as in the source. -/
def practice_loop (env : DriverEnv) (strike open_value : ℤ) (finger_indices : List ℤ)
    (max_loops : ℤ) : ℕ → ℕ → ℕ → LoopOutcome × ℕ × List Event
  | 0, _, n => (LoopOutcome.fuelOut, n, [])
  | fuel + 1, loop_idx, n =>
    if env.interrupt_at = some loop_idx then (LoopOutcome.interrupted, n, [])
    else if 0 < max_loops ∧ max_loops ≤ (loop_idx : ℤ) then (LoopOutcome.completed, n, [])
    else
      let r1 := press_release_fingers env strike open_value finger_indices n
      if r1.1 then
        let r2 := practice_loop env strike open_value finger_indices max_loops
          fuel (loop_idx + 1) r1.2.1
        (r2.1, r2.2.1, r1.2.2 ++ r2.2.2)
      else (LoopOutcome.failed, r1.2.1, r1.2.2)

/-- The bounded note-test loop (`four_finger_note_test.py` lines 170–179):
`loops` press/release passes, aborting on the first failed command. -/
def note_test_loop (env : DriverEnv) (strike open_value : ℤ) (finger_indices : List ℤ) :
    ℕ → ℕ → Bool × ℕ × List Event
  | 0, n => (true, n, [])
  | loops + 1, n =>
    let r1 := press_release_fingers env strike open_value finger_indices n
    if r1.1 then
      let r2 := note_test_loop env strike open_value finger_indices loops r1.2.1
      (r2.1, r2.2.1, r1.2.2 ++ r2.2.2)
    else (false, r1.2.1, r1.2.2)

/-- Configuration surface of `run_continuous_practice` (hold durations and
transport addresses omitted: they never influence a claim). -/
structure PracticeConfig where
  center_joints : List ℚ
  home_joints : List ℚ
  finger_indices : List ℤ
  open_value : ℤ
  close_reference : ℤ
  down_fraction : ℚ
  return_home : Bool
  max_loops : ℤ

/-- Configuration surface of `run_test` (`four_finger_note_test.py`). -/
structure TestConfig where
  center_joints : List ℚ
  home_joints : List ℚ
  finger_indices : List ℤ
  loops : ℕ
  open_value : ℤ
  close_reference : ℤ
  down_fraction : ℚ
  return_home : Bool

/-- Hand part of the practice cleanup (`continuous_practice.py` lines
194–203), entered with hand-command counter `n`: re-run `_force_full_open`
(result ignored), then disconnect. -/
def practice_hand_cleanup (env : DriverEnv) (open_value : ℤ) (finger_indices : List ℤ)
    (n : ℕ) : List Event :=
  (_force_full_open env open_value finger_indices n).2.2 ++ [Event.handDisconnect]

/-- Arm part of the practice cleanup (`continuous_practice.py` lines 204–214):
home on interrupt, else on `return_home`, else whenever the run did not
complete; then disconnect. -/
def practice_arm_cleanup (home_joints : List ℚ) (return_home interrupted completed : Bool) :
    List Event :=
  (if interrupted then [Event.armMove home_joints]
   else if return_home then [Event.armMove home_joints]
   else if !completed then [Event.armMove home_joints]
   else []) ++ [Event.armDisconnect]

/-- `run_continuous_practice` (`continuous_practice.py` lines 111–214) as a
trace-producing function.  `none` means the model's fuel ran out inside the
unbounded loop (the program would still be looping).  Each branch returns the
routine's boolean result together with the full trace, `finally`-block
included, exactly as dictated by the `arm_ok`/`hand_ok`/`completed`/
`interrupted` flags of that exit path. -/
def run_continuous_practice (env : DriverEnv) (cfg : PracticeConfig) (fuel : ℕ) :
    Option (Bool × List Event) :=
  let strike := compute_strike_value cfg.open_value cfg.close_reference cfg.down_fraction
  if !env.arm_connect_ok then
    some (false, [Event.armConnect])
  else if !env.arm_move_ok 0 then
    some (false, [Event.armConnect, Event.armMove cfg.center_joints]
      ++ practice_arm_cleanup cfg.home_joints cfg.return_home false false)
  else if !env.hand_connect_ok then
    some (false, [Event.armConnect, Event.armMove cfg.center_joints, Event.handConnect]
      ++ practice_arm_cleanup cfg.home_joints cfg.return_home false false)
  else
    let r0 := _force_full_open env cfg.open_value cfg.finger_indices 0
    let pre := [Event.armConnect, Event.armMove cfg.center_joints, Event.handConnect]
      ++ r0.2.2
    if !r0.1 then
      some (false, pre ++ practice_hand_cleanup env cfg.open_value cfg.finger_indices r0.2.1
        ++ practice_arm_cleanup cfg.home_joints cfg.return_home false false)
    else
      let lp := practice_loop env strike cfg.open_value cfg.finger_indices cfg.max_loops
        fuel 0 r0.2.1
      match lp.1 with
      | LoopOutcome.fuelOut => none
      | LoopOutcome.completed =>
        some (true, pre ++ lp.2.2
          ++ practice_hand_cleanup env cfg.open_value cfg.finger_indices lp.2.1
          ++ practice_arm_cleanup cfg.home_joints cfg.return_home false true)
      | LoopOutcome.interrupted =>
        some (true, pre ++ lp.2.2
          ++ practice_hand_cleanup env cfg.open_value cfg.finger_indices lp.2.1
          ++ practice_arm_cleanup cfg.home_joints cfg.return_home true true)
      | LoopOutcome.failed =>
        some (false, pre ++ lp.2.2
          ++ practice_hand_cleanup env cfg.open_value cfg.finger_indices lp.2.1
          ++ practice_arm_cleanup cfg.home_joints cfg.return_home false false)

/-- Arm part of the note-test cleanup (`four_finger_note_test.py` lines
198–205): home on `return_home`, else whenever the test did not complete;
then disconnect. -/
def test_arm_cleanup (home_joints : List ℚ) (return_home test_ok : Bool) : List Event :=
  (if return_home then [Event.armMove home_joints]
   else if !test_ok then [Event.armMove home_joints]
   else []) ++ [Event.armDisconnect]

/-- `run_test` (`four_finger_note_test.py` lines 111–205) as a
trace-producing function; the hand cleanup is a bare disconnect here. -/
def run_test (env : DriverEnv) (cfg : TestConfig) : Bool × List Event :=
  let strike := compute_strike_value cfg.open_value cfg.close_reference cfg.down_fraction
  if !env.arm_connect_ok then
    (false, [Event.armConnect])
  else if !env.arm_move_ok 0 then
    (false, [Event.armConnect, Event.armMove cfg.center_joints]
      ++ test_arm_cleanup cfg.home_joints cfg.return_home false)
  else if !env.hand_connect_ok then
    (false, [Event.armConnect, Event.armMove cfg.center_joints, Event.handConnect]
      ++ test_arm_cleanup cfg.home_joints cfg.return_home false)
  else
    let r0 := _force_full_open env cfg.open_value cfg.finger_indices 0
    let pre := [Event.armConnect, Event.armMove cfg.center_joints, Event.handConnect]
      ++ r0.2.2
    if !r0.1 then
      (false, pre ++ [Event.handDisconnect]
        ++ test_arm_cleanup cfg.home_joints cfg.return_home false)
    else
      let lp := note_test_loop env strike cfg.open_value cfg.finger_indices cfg.loops r0.2.1
      if !lp.1 then
        (false, pre ++ lp.2.2 ++ [Event.handDisconnect]
          ++ test_arm_cleanup cfg.home_joints cfg.return_home false)
      else
        let rf := _force_full_open env cfg.open_value cfg.finger_indices lp.2.1
        if !rf.1 then
          (false, pre ++ lp.2.2 ++ rf.2.2 ++ [Event.handDisconnect]
            ++ test_arm_cleanup cfg.home_joints cfg.return_home false)
        else
          (true, pre ++ lp.2.2 ++ rf.2.2 ++ [Event.handDisconnect]
            ++ test_arm_cleanup cfg.home_joints cfg.return_home true)

/-- Boolean result of a (terminating) routine run. -/
def run_success (r : Option (Bool × List Event)) : Bool := (r.map Prod.fst).getD false

/-- Event trace of a (terminating) routine run. -/
def run_events (r : Option (Bool × List Event)) : List Event := (r.map Prod.snd).getD []

/-- Environment whose very first hand command is rejected by the transport
(and every later call succeeds); used to exercise `_force_full_open`'s
short-circuit. -/
def first_cmd_fails_env : DriverEnv :=
  { arm_connect_ok := true
    hand_connect_ok := true
    arm_move_ok := fun _ => true
    hand_cmd_ok := fun n => !(n == 0)
    interrupt_at := none }

/-! ### Calibration engine (`play_center_calibration.py`) -/

/-- `JOINT_LIMITS_DEG` (`play_center_calibration.py` lines 29–36). -/
def JOINT_LIMITS_DEG : List (ℚ × ℚ) :=
  [(-360, 360), (-132, 132), (-242, 7/2), (-360, 360), (-124, 124), (-360, 360)]

/-- `CANDIDATE_CENTERS` (lines 21–26); Python dict iteration preserves
insertion order. -/
def CANDIDATE_CENTERS : List (String × List ℚ) :=
  [("center_a", [0, -20, -35, 0, 100, -45]),
   ("center_b", [0, -17, -28, 0, 75, -45]),
   ("center_c", [0, -26, -44, 0, 106, -45]),
   ("center_d", [0, -18, -52, 0, 110, -45])]

/-- `_pose_with_j1_offset` (lines 61–64).  (Indexing an empty pose would
raise in Python; poses here always have 6 entries.) -/
def _pose_with_j1_offset (base_pose : List ℚ) (delta_j1 : ℚ) : List ℚ :=
  match base_pose with
  | [] => []
  | x :: rest => (x + delta_j1) :: rest

/-- Python `min(l)` for a nonempty list, with `0.0` substituted for the empty
list as the source's `min(margins) if margins else 0.0` does. -/
def py_min_list (l : List ℚ) : ℚ :=
  match l with
  | [] => 0
  | x :: xs => xs.foldl min x

/-- Python `max(l)` for a nonempty list (`0` default never reached by the
source, which guards with non-emptiness). -/
def py_max_list (l : List ℚ) : ℚ :=
  match l with
  | [] => 0
  | x :: xs => xs.foldl max x

/-- The per-joint margin entries of `_joint_margin_score` (lines 67–75):
degenerate limit ranges score 0, otherwise twice the distance to the nearer
limit, normalised by the range width and clamped to [0,1]. -/
def margin_entries (limits : List (ℚ × ℚ)) (angles : List ℚ) : List ℚ :=
  (angles.zip limits).map (fun p =>
    if p.2.2 ≤ p.2.1 then 0
    else max 0 (min 1 ((2 * min (p.1 - p.2.1) (p.2.2 - p.1)) / (p.2.2 - p.2.1))))

/-- `_joint_margin_score` (lines 67–76).  The source closes over the module
constant `JOINT_LIMITS_DEG`; the limit table is a parameter here so the
degenerate-range behaviour the spec quantifies over is statable. -/
def _joint_margin_score (limits : List (ℚ × ℚ)) (angles : List ℚ) : ℚ :=
  py_min_list (margin_entries limits angles)

/-- `_candidate_margin` (lines 79–86): minimum margin over the center pose
and the two J1 sweep extremes. -/
def _candidate_margin (limits : List (ℚ × ℚ)) (center_pose : List ℚ)
    (sweep_delta_j1 : ℚ) : ℚ :=
  min (min (_joint_margin_score limits center_pose)
        (_joint_margin_score limits (_pose_with_j1_offset center_pose (-|sweep_delta_j1|))))
    (_joint_margin_score limits (_pose_with_j1_offset center_pose |sweep_delta_j1|))

/-- `CandidateResult` (lines 39–51).  `none` in the mean/std fields stands
for Python `math.inf`. -/
structure CandidateResult where
  name : String
  center_pose_deg : List ℚ
  ok : Bool
  reason : String
  segment_times_sec : List ℚ
  mean_segment_time_sec : Option ℚ
  std_segment_time_sec : Option ℚ
  speed_raw : ℚ
  smoothness_raw : ℚ
  margin_raw : ℚ
  total_score : ℚ
deriving DecidableEq

/-- Python `x or 1.0` on a float: `0.0` is the only falsy value arising. -/
def py_or_one (x : ℚ) : ℚ := if x = 0 then 1 else x

/-- `_score_results` (lines 118–131), functionally: normalise each raw metric
of the ok candidates by its maximum over the ok candidates (divisor 1.0 when
that maximum is zero), then blend 0.50/0.35/0.15.  Candidates not marked ok
keep their constructed `total_score` of 0. -/
def _score_results (results : List CandidateResult) : List CandidateResult :=
  let valid := results.filter (fun r => r.ok)
  if valid.isEmpty then results
  else
    let max_speed := py_or_one (py_max_list (valid.map (fun r => r.speed_raw)))
    let max_smooth := py_or_one (py_max_list (valid.map (fun r => r.smoothness_raw)))
    let max_margin := py_or_one (py_max_list (valid.map (fun r => r.margin_raw)))
    results.map (fun r =>
      if r.ok then
        { r with total_score :=
            0.50 * (r.speed_raw / max_speed) + 0.35 * (r.smoothness_raw / max_smooth)
              + 0.15 * (r.margin_raw / max_margin) }
      else r)

/-- Python `max(l, key=f)`: first element with strictly maximal key. -/
def py_max_by (f : CandidateResult → ℚ) : List CandidateResult → Option CandidateResult
  | [] => none
  | x :: xs => some (xs.foldl (fun best y => if f best < f y then y else best) x)

/-- The per-candidate evaluation of `main`'s loop (lines 212–251): margin
from `_candidate_margin`, then — when the sweep benchmark succeeded with at
least one timed segment — exact mean, population standard deviation, and the
`1/max(·, 1e-6)` speed/smoothness raws; otherwise infinite mean/std and zero
raws.  `statistics.pstdev` takes a real square root, which has no image in
`ℚ`, so the standard-deviation function is a parameter (`pstdev_of`); every
theorem below holds for all values of it, and concrete runs only ever apply
it to constant-time lists, where it is exactly 0. -/
def calib_candidate_result (pstdev_of : List ℚ → ℚ) (sweep_delta_j1 : ℚ)
    (name : String) (pose : List ℚ) (bench : Bool × String × List ℚ) : CandidateResult :=
  let margin := _candidate_margin JOINT_LIMITS_DEG pose sweep_delta_j1
  let ok := bench.1
  let reason := bench.2.1
  let times := bench.2.2
  if ok ∧ times ≠ [] then
    let mean_t := times.sum / (times.length : ℚ)
    let std_t := if 1 < times.length then pstdev_of times else 0
    let speed_raw := 1 / max mean_t (1 / 1000000)
    let cv := std_t / max mean_t (1 / 1000000)
    let smooth_raw := 1 / max cv (1 / 1000000)
    ⟨name, pose, ok, reason, times, some mean_t, some std_t, speed_raw, smooth_raw, margin, 0⟩
  else
    ⟨name, pose, ok, reason, times, none, none, 0, 0, margin, 0⟩

/-- External-call results for one calibration invocation.  `benchmarks i` is
the `(ok, reason, segment_times)` triple `_run_sweep_benchmark` returns for
the i-th catalog candidate (its value is fixed by the arm's behaviour, which
is an external collaborator). -/
structure CalibEnv where
  ping_ok : Bool
  arm_connect_ok : Bool
  home_move_ok : Bool
  benchmarks : ℕ → Bool × String × List ℚ
  pstdev_of : List ℚ → ℚ
  best_move_ok : Bool

/-- The calibration run parameters after argument parsing. -/
structure CalibParams where
  home_joints : List ℚ
  sweep_delta_j1 : ℚ
  execute : Bool
  move_to_best : Bool

/-- The `results` list `main` accumulates over the candidate catalog
(lines 204–251). -/
def calib_results (env : CalibEnv) (p : CalibParams) : List CandidateResult :=
  CANDIDATE_CENTERS.enum.map (fun ie =>
    calib_candidate_result env.pstdev_of p.sweep_delta_j1 ie.2.1 ie.2.2 (env.benchmarks ie.1))

/-- The JSON report `main` writes (lines 264–281), reduced to the fields the
claims mention. -/
structure CalibReport where
  best_candidate : CandidateResult
  all_candidates : List CandidateResult
deriving DecidableEq

/-- `main` of `play_center_calibration.py` (lines 146–294) from the point the
arguments are parsed: exit code plus the report written (if any).  Report
printing and the final return-home move (whose result is ignored) do not
affect either component. -/
def calib_main (env : CalibEnv) (p : CalibParams) : Int × Option CalibReport :=
  if !env.ping_ok then (1, none)
  else if !p.execute then (0, none)
  else if !env.arm_connect_ok then (1, none)
  else if !env.home_move_ok then (1, none)
  else
    let scored := _score_results (calib_results env p)
    match py_max_by (fun r => r.total_score) (scored.filter (fun r => r.ok)) with
    | none => (1, none)
    | some best =>
      let report : CalibReport := ⟨best, scored⟩
      if p.move_to_best then
        (if env.best_move_ok then (0, some report) else (1, some report))
      else (0, some report)

/-- Calibration environment in which only the first candidate's sweep
benchmark succeeds — with zero timed segments, the `--cycles 0` situation —
and every other candidate fails its warmup.  `pstdev_of` is constantly 0,
which agrees with `statistics.pstdev` on every list this run applies it to
(none at all, since the timed-segment list is empty). -/
def single_ok_env : CalibEnv :=
  { ping_ok := true
    arm_connect_ok := true
    home_move_ok := true
    benchmarks := fun i => if i = 0 then (true, "ok", []) else (false, "warmup move failed", [])
    pstdev_of := fun _ => 0
    best_move_ok := true }

/-- Parameters with a ±360° J1 sweep: the left sweep extreme of `center_a`
sits exactly on the J1 lower limit, so its margin score is 0. -/
def single_ok_params : CalibParams :=
  { home_joints := [0, 0, 0, 0, 90, -45]
    sweep_delta_j1 := 360
    execute := true
    move_to_best := false }

/-- The `CandidateResult` the run under `single_ok_env`/`single_ok_params`
produces for `center_a`: benchmark ok with zero timed segments, so infinite
mean/std, zero speed and smoothness raws — and margin raw 0 because the left
sweep extreme touches the J1 limit. -/
def center_a_empty_result : CandidateResult :=
  { name := "center_a"
    center_pose_deg := [0, -20, -35, 0, 100, -45]
    ok := true
    reason := "ok"
    segment_times_sec := []
    mean_segment_time_sec := none
    std_segment_time_sec := none
    speed_raw := 0
    smoothness_raw := 0
    margin_raw := 0
    total_score := 0 }

/-- Calibration environment in which every candidate's sweep benchmark fails
at warmup. -/
def all_fail_env : CalibEnv :=
  { ping_ok := true
    arm_connect_ok := true
    home_move_ok := true
    benchmarks := fun _ => (false, "warmup move failed", [])
    pstdev_of := fun _ => 0
    best_move_ok := true }

/-- Default-flavoured calibration parameters (10° sweep, execute, no
move-to-best). -/
def default_calib_params : CalibParams :=
  { home_joints := [0, 0, 0, 0, 90, -45]
    sweep_delta_j1 := 10
    execute := true
    move_to_best := false }

/-! ### Inspire-hand Modbus driver (`pianist_robot_v1/drivers/hand_modbus_driver.py`) -/

/-- Transport-level environment: `connected` is whether `connect()`
established an instrument, `write_ok n addr` the outcome of the n-th
`instrument.write_registers` attempt (an exception maps to `false`). -/
structure ModbusEnv where
  connected : Bool
  write_ok : ℕ → ℤ → Bool

/-- `_address_candidates` (lines 78–82): byte-style address plus the halved
register-style address when even. -/
def _address_candidates (base_addr : ℤ) : ℤ × ℤ :=
  if base_addr % 2 = 0 then (base_addr, Int.fdiv base_addr 2) else (base_addr, base_addr)

/-- `_write_registers_with_fallback` (lines 84–102): refuse when not
connected; otherwise mask every value to 16 bits (`int(v) & 0xFFFF`, i.e.
`v mod 2^16`) and attempt the write at each candidate address in turn,
stopping at the first success.  Returns the outcome, the next attempt
counter, and the list of `(address, values)` writes issued. -/
def _write_registers_with_fallback (env : ModbusEnv) (attempt : ℕ) (base_addr : ℤ)
    (values : List ℤ) : Bool × ℕ × List (ℤ × List ℤ) :=
  if !env.connected then (false, attempt, [])
  else
    let normalized := values.map (fun v => v % 65536)
    let c := _address_candidates base_addr
    if env.write_ok attempt c.1 then (true, attempt + 1, [(c.1, normalized)])
    else if env.write_ok (attempt + 1) c.2 then
      (true, attempt + 2, [(c.1, normalized), (c.2, normalized)])
    else (false, attempt + 2, [(c.1, normalized), (c.2, normalized)])

/-- `set_motor_targets` (lines 104–114): exactly 6 targets, written at the
angle-set base address 1486. -/
def set_motor_targets (env : ModbusEnv) (attempt : ℕ) (motor_targets : List ℤ) :
    Bool × ℕ × List (ℤ × List ℤ) :=
  if motor_targets.length ≠ 6 then (false, attempt, [])
  else _write_registers_with_fallback env attempt 1486 motor_targets

/-- `move_single_motor` (lines 116–133): reject an out-of-range index before
any write; otherwise write a combined 6-slot command holding the masked
target at `motor_index` and the no-action sentinel everywhere else.  The
trailing `time.sleep` is not modelled. -/
def move_single_motor (env : ModbusEnv) (attempt : ℕ) (motor_index target_value : ℤ)
    (no_action_value : ℤ) : Bool × ℕ × List (ℤ × List ℤ) :=
  if motor_index < 0 ∨ 6 ≤ motor_index then (false, attempt, [])
  else
    let cmd := (List.replicate 6 (no_action_value % 65536)).set motor_index.toNat
      (target_value % 65536)
    set_motor_targets env attempt cmd

/-- Transport environment whose first register write raises and whose second
(fallback) write succeeds. -/
def fallback_write_env : ModbusEnv :=
  { connected := true
    write_ok := fun n _ => !(n == 0) }

/-- The 6-slot register image the claim describes for `move_single_motor`:
the masked target at `motor_index`, the no-action sentinel `0xFFFF`
everywhere else. -/
def single_motor_regs (motor_index target_value : ℤ) : List ℤ :=
  (List.range 6).map (fun j => if (j : ℤ) = motor_index then target_value % 65536 else 65535)

/-! ## Theorems -/

theorem rat_floor_eq_intFloor (q : ℚ) : Rat.floor q = ⌊q⌋ := by
  rw [Rat.floor_def' q, ← Rat.floor_def]

theorem pyRound_intCast (n : ℤ) : pyRound (n : ℚ) = n := by
  unfold pyRound
  rw [rat_floor_eq_intFloor, Int.floor_intCast]
  norm_num

theorem pyRound_sub_abs (q : ℚ) : |(pyRound q : ℚ) - q| ≤ 1/2 := by
  have h0 : (⌊q⌋ : ℚ) ≤ q := Int.floor_le q
  have h1 : q < (⌊q⌋ : ℚ) + 1 := Int.lt_floor_add_one q
  unfold pyRound
  rw [rat_floor_eq_intFloor]
  split
  · rename_i h
    rw [abs_sub_comm, abs_of_nonneg (by linarith)]
    linarith
  · rename_i h
    push_neg at h
    split
    · rename_i h2
      push_cast
      rw [abs_of_nonneg (by linarith)]
      linarith
    · rename_i h2
      push_neg at h2
      have he : q - (⌊q⌋ : ℚ) = 1/2 := le_antisymm h2 h
      split
      · rw [abs_sub_comm, abs_of_nonneg (by linarith)]
        linarith
      · push_cast [abs_of_nonneg (show (0:ℚ) ≤ (⌊q⌋:ℚ) + 1 - q by linarith)]
        linarith

theorem strike_at_defaults : compute_strike_value 1000 120 (2/5) = 648 := by
  have h1 : max (0:ℚ) (min 1 (2/5)) = 2/5 := by
    rw [min_eq_right (by norm_num), max_eq_right (by norm_num)]
  unfold compute_strike_value
  simp only [h1]
  have h2 : ((1000:ℤ) : ℚ) + (((120:ℤ):ℚ) - ((1000:ℤ):ℚ)) * (2/5) = 648 := by norm_num
  rw [h2]
  unfold pyRound
  rw [rat_floor_eq_intFloor]
  norm_num

/-- C1 (counterexample): at `openValue = 1000`, `closeReference = 120`,
`downFraction = 0.40`, `_compute_strike_value` does NOT return 472 — the
interpolation `round(1000 + (120 - 1000) * 0.40)` is 648.  (Under binary64
semantics the product `-880 * 0.4` also rounds to exactly `-352.0`, so the
Python value is likewise 648.) -/
theorem strike_default_scenario_counterexample :
    compute_strike_value 1000 120 (2/5) ≠ 472 := by
  rw [strike_at_defaults]
  decide

/-- C1 (amended): for `openValue = 1000`, `closeReference = 120`,
`downFraction = 0.40`, the strike-value computation returns 648. -/
theorem strike_default_scenario : compute_strike_value 1000 120 (2/5) = 648 :=
  strike_at_defaults

/-- C2: for all integer `openValue`, `closeReference` and rational
`downFraction`, `_compute_strike_value` equals
`round(openValue + (closeReference - openValue) * clamp01 downFraction)`;
`downFraction ≤ 0` yields exactly `openValue`; `downFraction ≥ 1` yields
exactly `closeReference`; and the result is within 1/2 of the exact
interpolant, i.e. is the value rounded to a nearest integer. -/
theorem strike_value_formula (open_value close_reference : ℤ) (down_fraction : ℚ) :
    compute_strike_value open_value close_reference down_fraction
      = pyRound ((open_value : ℚ)
          + ((close_reference : ℚ) - (open_value : ℚ)) * clamp01 down_fraction)
    ∧ (down_fraction ≤ 0 →
        compute_strike_value open_value close_reference down_fraction = open_value)
    ∧ (1 ≤ down_fraction →
        compute_strike_value open_value close_reference down_fraction = close_reference)
    ∧ |(compute_strike_value open_value close_reference down_fraction : ℚ)
          - ((open_value : ℚ)
              + ((close_reference : ℚ) - (open_value : ℚ)) * clamp01 down_fraction)|
        ≤ 1/2 := by
  refine ⟨rfl, ?_, ?_, ?_⟩
  · intro hle
    unfold compute_strike_value
    have h1 : max (0:ℚ) (min 1 down_fraction) = 0 := by
      rw [min_eq_right (by linarith), max_eq_left hle]
    simp only [h1, mul_zero, add_zero]
    exact pyRound_intCast open_value
  · intro hge
    unfold compute_strike_value
    have h1 : max (0:ℚ) (min 1 down_fraction) = 1 := by
      rw [min_eq_left hge, max_eq_right (by norm_num)]
    simp only [h1, mul_one]
    rw [show (open_value : ℚ) + ((close_reference : ℚ) - (open_value : ℚ))
          = ((close_reference : ℤ) : ℚ) by ring]
    exact pyRound_intCast close_reference
  · exact pyRound_sub_abs _

/-- C2 (witness): at `openValue = 1000`, `closeReference = 120`,
`downFraction = 2 ≥ 1` the computation returns the close reference 120. -/
theorem strike_value_formula_witness : compute_strike_value 1000 120 2 = 120 :=
  (strike_value_formula 1000 120 2).2.2.1 (by norm_num)

theorem practice_arm_cleanup_incomplete (h : List ℚ) (rh : Bool) :
    practice_arm_cleanup h rh false false = [Event.armMove h, Event.armDisconnect] := by
  cases rh <;> rfl

theorem practice_arm_cleanup_interrupted (h : List ℚ) (rh : Bool) :
    practice_arm_cleanup h rh true true = [Event.armMove h, Event.armDisconnect] := rfl

theorem test_arm_cleanup_incomplete (h : List ℚ) (rh : Bool) :
    test_arm_cleanup h rh false = [Event.armMove h, Event.armDisconnect] := by
  cases rh <;> rfl

/-- C4: if the arm connects but the initial move to the play-center pose is
rejected, both routines return failure having issued no hand call of any
kind, and the arm is still disconnected in cleanup. -/
theorem center_move_failure (env : DriverEnv) (cfg : PracticeConfig) (tcfg : TestConfig)
    (fuel : ℕ) (hc : env.arm_connect_ok = true) (hm : env.arm_move_ok 0 = false) :
    run_success (run_continuous_practice env cfg fuel) = false
    ∧ Event.handConnect ∉ run_events (run_continuous_practice env cfg fuel)
    ∧ (∀ v, Event.handSetAll v ∉ run_events (run_continuous_practice env cfg fuel))
    ∧ (∀ i v, Event.handSingle i v ∉ run_events (run_continuous_practice env cfg fuel))
    ∧ Event.armDisconnect ∈ run_events (run_continuous_practice env cfg fuel)
    ∧ (run_test env tcfg).1 = false
    ∧ Event.handConnect ∉ (run_test env tcfg).2
    ∧ (∀ v, Event.handSetAll v ∉ (run_test env tcfg).2)
    ∧ (∀ i v, Event.handSingle i v ∉ (run_test env tcfg).2)
    ∧ Event.armDisconnect ∈ (run_test env tcfg).2 := by
  have e1 : run_continuous_practice env cfg fuel
      = some (false, [Event.armConnect, Event.armMove cfg.center_joints,
          Event.armMove cfg.home_joints, Event.armDisconnect]) := by
    unfold run_continuous_practice
    rw [hc, hm]
    simp [practice_arm_cleanup_incomplete]
  have e2 : run_test env tcfg
      = (false, [Event.armConnect, Event.armMove tcfg.center_joints,
          Event.armMove tcfg.home_joints, Event.armDisconnect]) := by
    unfold run_test
    rw [hc, hm]
    simp [test_arm_cleanup_incomplete]
  rw [e1, e2]
  simp [run_success, run_events]

/-- C4 (witness): the concrete environment in which everything but the first
arm move succeeds exhibits the failure path of the practice routine. -/
theorem center_move_failure_witness :
    run_success (run_continuous_practice
      ⟨true, true, fun _ => false, fun _ => true, none⟩
      ⟨[], [], [3, 2, 1, 0], 1000, 120, 2/5, false, 0⟩ 1) = false :=
  (center_move_failure ⟨true, true, fun _ => false, fun _ => true, none⟩
    ⟨[], [], [3, 2, 1, 0], 1000, 120, 2/5, false, 0⟩
    ⟨[], [], [3, 2, 1, 0], 4, 1000, 120, 2/5, false⟩ 1 rfl rfl).1

theorem force_open_fingers_ok (env : DriverEnv) (v : ℤ) (fingers : List ℤ)
    (hw : ∀ m, env.hand_cmd_ok m = true) (hf : ∀ i ∈ fingers, 0 ≤ i ∧ i < 6) :
    ∀ n, _force_full_open_fingers env v fingers n
      = (true, n + fingers.length, fingers.map (fun i => Event.handSingle i v)) := by
  induction fingers with
  | nil => intro n; simp [_force_full_open_fingers]
  | cons i rest ih =>
    intro n
    have hi := hf i (by simp)
    have hrange : ¬ (i < 0 ∨ 6 ≤ i) := by omega
    have hrest : ∀ j ∈ rest, 0 ≤ j ∧ j < 6 := fun j hj => hf j (by simp [hj])
    simp only [_force_full_open_fingers, hand_move_single, if_neg hrange, hw,
      ih hrest (n + 1), if_true, List.length_cons, List.map_cons, Prod.mk.injEq]
    exact ⟨trivial, by omega, by simp⟩

theorem force_full_open_ok (env : DriverEnv) (v : ℤ) (fingers : List ℤ) (n : ℕ)
    (hw : ∀ m, env.hand_cmd_ok m = true) (hf : ∀ i ∈ fingers, 0 ≤ i ∧ i < 6) :
    _force_full_open env v fingers n
      = (true, n + fingers.length + 2, full_open_trace v fingers) := by
  simp only [_force_full_open, hand_set_all, hw, if_true,
    force_open_fingers_ok env v fingers hw hf (n + 1), full_open_trace, Prod.mk.injEq]
  exact ⟨trivial, by omega, by simp⟩

/-- C5 (counterexample): an invocation of `_force_full_open` (with the default
4-index FingerIndexSet) whose very first all-motors command is rejected issues
exactly 1 all-motor command and 0 single-motor commands — not 2 and 4. -/
theorem force_full_open_counterexample :
    count_set_all (_force_full_open first_cmd_fails_env 1000 [3, 2, 1, 0] 0).2.2 = 1
    ∧ count_single (_force_full_open first_cmd_fails_env 1000 [3, 2, 1, 0] 0).2.2 = 0 := by
  decide

/-- C5 (amended): whenever every issued command succeeds, `_force_full_open`
with a 4-index FingerIndexSet issues exactly 2 all-motor commands and exactly
4 single-motor commands, in the order all-motors, one single-motor command per
finger index, all-motors (on a command failure the source returns early and
the trace is the corresponding prefix of this sequence). -/
theorem force_full_open_counts (env : DriverEnv) (v : ℤ) (fingers : List ℤ) (n : ℕ)
    (hw : ∀ m, env.hand_cmd_ok m = true) (hf : ∀ i ∈ fingers, 0 ≤ i ∧ i < 6)
    (hlen : fingers.length = 4) :
    (_force_full_open env v fingers n).2.2
      = [Event.handSetAll v] ++ fingers.map (fun i => Event.handSingle i v)
        ++ [Event.handSetAll v]
    ∧ count_set_all (_force_full_open env v fingers n).2.2 = 2
    ∧ count_single (_force_full_open env v fingers n).2.2 = 4 := by
  have hsingle : ∀ l : List ℤ,
      count_single (l.map (fun i => Event.handSingle i v)) = l.length := by
    intro l
    induction l with
    | nil => rfl
    | cons i r ih =>
      simp only [List.map_cons, count_single, List.countP_cons] at *
      rw [ih]
      rfl
  have hsetall : ∀ l : List ℤ,
      count_set_all (l.map (fun i => Event.handSingle i v)) = 0 := by
    intro l
    induction l with
    | nil => rfl
    | cons i r ih =>
      simp only [List.map_cons, count_set_all, List.countP_cons] at *
      rw [ih]
      rfl
  rw [force_full_open_ok env v fingers n hw hf]
  refine ⟨rfl, ?_, ?_⟩
  · simp only [full_open_trace, count_set_all, List.countP_append] at *
    rw [show (List.countP _ (fingers.map (fun i => Event.handSingle i v))) = 0
      from hsetall fingers]
    rfl
  · simp only [full_open_trace, count_single, List.countP_append] at *
    rw [show (List.countP _ (fingers.map (fun i => Event.handSingle i v)))
        = fingers.length from hsingle fingers, hlen]
    rfl

/-- C5 (witness): with every command succeeding and the default FingerIndexSet
`[3,2,1,0]`, the reinforcement sequence issues 2 all-motor and 4 single-motor
commands. -/
theorem force_full_open_counts_witness :
    count_set_all (_force_full_open
      ⟨true, true, fun _ => true, fun _ => true, none⟩ 1000 [3, 2, 1, 0] 0).2.2 = 2 :=
  (force_full_open_counts ⟨true, true, fun _ => true, fun _ => true, none⟩ 1000
    [3, 2, 1, 0] 0 (fun _ => rfl) (by decide) rfl).2.1

theorem press_release_fst (env : DriverEnv) (strike v : ℤ) (fingers : List ℤ)
    (hw : ∀ m, env.hand_cmd_ok m = true) (hf : ∀ i ∈ fingers, 0 ≤ i ∧ i < 6) :
    ∀ n, (press_release_fingers env strike v fingers n).1 = true := by
  induction fingers with
  | nil => intro n; rfl
  | cons i rest ih =>
    intro n
    have hi := hf i (by simp)
    have hrange : ¬ (i < 0 ∨ 6 ≤ i) := by omega
    have hrest : ∀ j ∈ rest, 0 ≤ j ∧ j < 6 := fun j hj => hf j (by simp [hj])
    simp only [press_release_fingers, hand_move_single, if_neg hrange, hw, if_true]
    exact ih hrest _

theorem practice_loop_interrupted (env : DriverEnv) (strike v : ℤ) (fingers : List ℤ)
    (maxL : ℤ) (k : ℕ)
    (hint : env.interrupt_at = some k)
    (hw : ∀ m, env.hand_cmd_ok m = true) (hf : ∀ i ∈ fingers, 0 ≤ i ∧ i < 6)
    (hml : maxL ≤ 0 ∨ (k : ℤ) ≤ maxL) :
    ∀ fuel loop_idx n, loop_idx ≤ k → k - loop_idx < fuel →
      ∃ n' e, practice_loop env strike v fingers maxL fuel loop_idx n
        = (LoopOutcome.interrupted, n', e) := by
  intro fuel
  induction fuel with
  | zero => intro li n hle hlt; omega
  | succ fuel ih =>
    intro li n hle hlt
    by_cases hk : li = k
    · subst hk
      exact ⟨n, [], by simp [practice_loop, hint]⟩
    · have hlik : li < k := lt_of_le_of_ne hle hk
      have hni : ¬ (env.interrupt_at = some li) := by
        rw [hint]
        simp
        omega
      have hnb : ¬ (0 < maxL ∧ maxL ≤ (li : ℤ)) := by
        rcases hml with h | h
        · omega
        · rintro ⟨h1, h2⟩
          have : (li : ℤ) < (k : ℤ) := by exact_mod_cast hlik
          omega
      obtain ⟨n', e, he⟩ := ih (li + 1)
        ((press_release_fingers env strike v fingers n).2.1) (by omega) (by omega)
      refine ⟨n', (press_release_fingers env strike v fingers n).2.2 ++ e, ?_⟩
      simp only [practice_loop, if_neg hni, if_neg hnb,
        press_release_fst env strike v fingers hw hf n, if_true, he]

/-- C3: when arm and hand connect, the initial positioning and full-open
succeed, and a `KeyboardInterrupt` is delivered at the top of practice-loop
iteration `k` (before the `max_loops` cutoff would end the loop), the
practice routine returns success, and its trace ends with the cleanup
sequence: the hand forced fully open and disconnected, then the arm moved to
the home pose and disconnected — for every value of `return_home`, including
`false`. -/
theorem practice_interrupt_cleanup (env : DriverEnv) (cfg : PracticeConfig)
    (k fuel : ℕ)
    (hca : env.arm_connect_ok = true) (hcm : env.arm_move_ok 0 = true)
    (hch : env.hand_connect_ok = true)
    (hw : ∀ m, env.hand_cmd_ok m = true)
    (hf : ∀ i ∈ cfg.finger_indices, 0 ≤ i ∧ i < 6)
    (hint : env.interrupt_at = some k)
    (hml : cfg.max_loops ≤ 0 ∨ (k : ℤ) ≤ cfg.max_loops)
    (hfuel : k < fuel) :
    run_success (run_continuous_practice env cfg fuel) = true
    ∧ (full_open_trace cfg.open_value cfg.finger_indices
        ++ [Event.handDisconnect, Event.armMove cfg.home_joints, Event.armDisconnect])
      <:+ run_events (run_continuous_practice env cfg fuel) := by
  obtain ⟨n', e, he⟩ := practice_loop_interrupted env
    (compute_strike_value cfg.open_value cfg.close_reference cfg.down_fraction)
    cfg.open_value cfg.finger_indices cfg.max_loops k hint hw hf hml fuel 0
    (cfg.finger_indices.length + 2) (Nat.zero_le k) (by omega)
  have hrun : run_continuous_practice env cfg fuel
      = some (true,
          ([Event.armConnect, Event.armMove cfg.center_joints, Event.handConnect]
            ++ full_open_trace cfg.open_value cfg.finger_indices ++ e)
          ++ (full_open_trace cfg.open_value cfg.finger_indices
            ++ [Event.handDisconnect, Event.armMove cfg.home_joints,
                Event.armDisconnect])) := by
    unfold run_continuous_practice
    rw [hca, hcm, hch]
    simp only [Bool.not_true, Bool.false_eq_true, if_false,
      force_full_open_ok env cfg.open_value cfg.finger_indices 0 hw hf,
      Nat.zero_add, he, practice_hand_cleanup,
      force_full_open_ok env cfg.open_value cfg.finger_indices n' hw hf,
      practice_arm_cleanup_interrupted]
    simp
  rw [hrun]
  constructor
  · rfl
  · exact ⟨_, rfl⟩

/-- C3 (witness): a concrete interrupted run (interrupt at loop iteration 1,
`return_home = false`, unbounded loop) returns success with the
open-disconnect-home-disconnect cleanup tail. -/
theorem practice_interrupt_cleanup_witness :
    run_success (run_continuous_practice
      ⟨true, true, fun _ => true, fun _ => true, some 1⟩
      ⟨[0, -17, -28, 0, 75, -45], [0, 0, 0, 0, 90, -45], [3, 2, 1, 0],
        1000, 120, 2/5, false, 0⟩ 2) = true
    ∧ (full_open_trace 1000 [3, 2, 1, 0]
        ++ [Event.handDisconnect, Event.armMove [0, 0, 0, 0, 90, -45],
            Event.armDisconnect])
      <:+ run_events (run_continuous_practice
        ⟨true, true, fun _ => true, fun _ => true, some 1⟩
        ⟨[0, -17, -28, 0, 75, -45], [0, 0, 0, 0, 90, -45], [3, 2, 1, 0],
          1000, 120, 2/5, false, 0⟩ 2) :=
  practice_interrupt_cleanup
    ⟨true, true, fun _ => true, fun _ => true, some 1⟩
    ⟨[0, -17, -28, 0, 75, -45], [0, 0, 0, 0, 90, -45], [3, 2, 1, 0],
      1000, 120, 2/5, false, 0⟩ 1 2 rfl rfl rfl (fun _ => rfl) (by decide) rfl
    (Or.inl (by decide)) (by decide)

theorem foldl_min_le_init (l : List ℚ) : ∀ a : ℚ, l.foldl min a ≤ a := by
  induction l with
  | nil => intro a; exact le_refl a
  | cons x xs ih =>
    intro a
    calc (x :: xs).foldl min a = xs.foldl min (min a x) := rfl
    _ ≤ min a x := ih (min a x)
    _ ≤ a := min_le_left a x

theorem foldl_min_le_mem (l : List ℚ) :
    ∀ a x : ℚ, x ∈ l → l.foldl min a ≤ x := by
  induction l with
  | nil => intro a x hx; cases hx
  | cons y ys ih =>
    intro a x hx
    rcases List.mem_cons.mp hx with h | h
    · subst h
      calc (x :: ys).foldl min a = ys.foldl min (min a x) := rfl
      _ ≤ min a x := foldl_min_le_init ys (min a x)
      _ ≤ x := min_le_right a x
    · exact ih (min a y) x h

theorem le_foldl_min (l : List ℚ) :
    ∀ a c : ℚ, c ≤ a → (∀ x ∈ l, c ≤ x) → c ≤ l.foldl min a := by
  induction l with
  | nil => intro a c hca _; exact hca
  | cons y ys ih =>
    intro a c hca hl
    exact ih (min a y) c (le_min hca (hl y (by simp))) (fun x hx => hl x (by simp [hx]))

theorem py_min_list_nonneg (l : List ℚ) (h : ∀ x ∈ l, 0 ≤ x) : 0 ≤ py_min_list l := by
  match l with
  | [] => exact le_refl 0
  | x :: xs =>
    exact le_foldl_min xs x 0 (h x (by simp)) (fun y hy => h y (by simp [hy]))

theorem py_min_list_le_mem (l : List ℚ) (x : ℚ) (hx : x ∈ l) : py_min_list l ≤ x := by
  match l with
  | y :: ys =>
    rcases List.mem_cons.mp hx with h | h
    · subst h
      exact foldl_min_le_init ys x
    · exact foldl_min_le_mem ys y x h

theorem margin_entries_bounds (limits : List (ℚ × ℚ)) (angles : List ℚ) :
    ∀ x ∈ margin_entries limits angles, 0 ≤ x ∧ x ≤ 1 := by
  intro x hx
  obtain ⟨p, _, hp⟩ := List.mem_map.mp hx
  subst hp
  split
  · exact ⟨le_refl 0, by norm_num⟩
  · exact ⟨le_max_left 0 _, max_le (by norm_num) (min_le_left 1 _)⟩

/-- C7: the joint-margin score lies in [0,1] for every pose and limit table;
a joint whose limit range has zero width forces the score of any pose using
it to 0; the candidate margin is the minimum of the margin scores of the
center pose and the two poses offset by ±|sweep delta| on the first joint.
(The limit table, a module constant in the source, is a parameter here so
the degenerate-range behaviour is statable; the source instantiates it with
`JOINT_LIMITS_DEG`.) -/
theorem joint_margin_score_props (limits : List (ℚ × ℚ)) (angles : List ℚ)
    (center : List ℚ) (delta : ℚ) :
    (0 ≤ _joint_margin_score limits angles ∧ _joint_margin_score limits angles ≤ 1)
    ∧ (∀ a lo hi, (a, (lo, hi)) ∈ angles.zip limits → hi = lo →
        _joint_margin_score limits angles = 0)
    ∧ _candidate_margin limits center delta
        = min (min (_joint_margin_score limits center)
            (_joint_margin_score limits (_pose_with_j1_offset center (-|delta|))))
          (_joint_margin_score limits (_pose_with_j1_offset center |delta|)) := by
  have hb := margin_entries_bounds limits angles
  refine ⟨⟨py_min_list_nonneg _ (fun x hx => (hb x hx).1), ?_⟩, ?_, rfl⟩
  · unfold _joint_margin_score
    match hme : margin_entries limits angles with
    | [] => norm_num [py_min_list]
    | x :: xs =>
      have hx1 : x ≤ 1 := (hb x (by rw [hme]; simp)).2
      calc py_min_list (x :: xs) ≤ x := py_min_list_le_mem _ x (by simp)
      _ ≤ 1 := hx1
  · intro a lo hi hmem heq
    have h0 : (0 : ℚ) ∈ margin_entries limits angles := by
      unfold margin_entries
      refine List.mem_map.mpr ⟨(a, (lo, hi)), hmem, ?_⟩
      rw [if_pos (by rw [heq])]
    have hle := py_min_list_le_mem _ 0 h0
    have hge := py_min_list_nonneg _ (fun x hx => (hb x hx).1)
    exact le_antisymm hle hge

/-- C7 (witness): a degenerate limit table (zero-width range) forces score 0,
and the score of the default home pose against the real limit table is within
[0,1]. -/
theorem joint_margin_score_props_witness :
    _joint_margin_score [((2:ℚ), (2:ℚ))] [5] = 0
    ∧ 0 ≤ _joint_margin_score JOINT_LIMITS_DEG [0, 0, 0, 0, 90, -45] :=
  ⟨(joint_margin_score_props [((2:ℚ), (2:ℚ))] [5] [] 0).2.1 5 2 2 (by simp) rfl,
   (joint_margin_score_props JOINT_LIMITS_DEG [0, 0, 0, 0, 90, -45] [] 0).1.1⟩

theorem calib_candidate_result_ok (pstdev_of : List ℚ → ℚ) (d : ℚ) (name : String)
    (pose : List ℚ) (b : Bool × String × List ℚ) :
    (calib_candidate_result pstdev_of d name pose b).ok = b.1 := by
  unfold calib_candidate_result
  dsimp only
  split <;> rfl

theorem calib_results_ok_false (env : CalibEnv) (p : CalibParams)
    (hb : ∀ i, (env.benchmarks i).1 = false) :
    ∀ r ∈ calib_results env p, r.ok = false := by
  intro r hr
  obtain ⟨ie, _, he⟩ := List.mem_map.mp hr
  rw [← he, calib_candidate_result_ok]
  exact hb ie.1

/-- C8: a calibration run that reaches the candidate loop (ping ok, execute
requested, arm connected, home reached) in which every candidate's sweep
benchmark fails returns the failure exit code 1 and writes no report (so in
particular no report containing a best candidate). -/
theorem calib_all_fail (env : CalibEnv) (p : CalibParams)
    (h1 : env.ping_ok = true) (h2 : p.execute = true)
    (h3 : env.arm_connect_ok = true) (h4 : env.home_move_ok = true)
    (hb : ∀ i, (env.benchmarks i).1 = false) :
    calib_main env p = (1, none) := by
  have hfil : (calib_results env p).filter (fun r => r.ok) = [] := by
    rw [List.filter_eq_nil_iff]
    intro a ha
    simp [calib_results_ok_false env p hb a ha]
  have hscored : _score_results (calib_results env p) = calib_results env p := by
    unfold _score_results
    rw [hfil]
    rfl
  unfold calib_main
  rw [h1, h2, h3, h4]
  simp only [Bool.not_true, Bool.false_eq_true, if_false, hscored, hfil, py_max_by]

/-- C8 (witness): the concrete all-candidates-fail environment yields exit
code 1 and no report. -/
theorem calib_all_fail_witness : calib_main all_fail_env default_calib_params = (1, none) :=
  calib_all_fail all_fail_env default_calib_params rfl rfl rfl rfl (fun _ => rfl)

theorem joint_margin_nonneg (limits : List (ℚ × ℚ)) (angles : List ℚ) :
    0 ≤ _joint_margin_score limits angles :=
  py_min_list_nonneg _ (fun x hx => (margin_entries_bounds limits angles x hx).1)

theorem margin_left_zero :
    _joint_margin_score JOINT_LIMITS_DEG [-360, -20, -35, 0, 100, -45] = 0 := by
  have h0 : (0:ℚ) ∈ margin_entries JOINT_LIMITS_DEG [-360, -20, -35, 0, 100, -45] := by
    refine List.mem_map.mpr ⟨(-360, (-360, 360)), ?_, ?_⟩
    · simp [JOINT_LIMITS_DEG, List.zip]
    · rw [if_neg (by norm_num)]
      norm_num [min_def, max_def]
  exact le_antisymm (py_min_list_le_mem _ 0 h0) (joint_margin_nonneg _ _)

theorem margin_center_a :
    _candidate_margin JOINT_LIMITS_DEG [0, -20, -35, 0, 100, -45] 360 = 0 := by
  unfold _candidate_margin
  rw [abs_of_nonneg (by norm_num : (0:ℚ) ≤ 360)]
  have hleft : _pose_with_j1_offset [0, -20, -35, 0, 100, -45] (-360)
      = [-360, -20, -35, 0, 100, -45] := by
    norm_num [_pose_with_j1_offset]
  rw [hleft, margin_left_zero,
    min_eq_right (joint_margin_nonneg JOINT_LIMITS_DEG [0, -20, -35, 0, 100, -45]),
    min_eq_left (joint_margin_nonneg JOINT_LIMITS_DEG
      (_pose_with_j1_offset [0, -20, -35, 0, 100, -45] 360))]

theorem filter_ok_map (results : List CandidateResult)
    (g : CandidateResult → CandidateResult) (hg : ∀ r, (g r).ok = r.ok) :
    (results.map (fun r => if r.ok then g r else r)).filter (fun r => r.ok)
      = (results.filter (fun r => r.ok)).map g := by
  induction results with
  | nil => rfl
  | cons r rs ih =>
    by_cases hr : r.ok = true
    · simp [hr, hg, ih]
    · simp [hr, Bool.of_not_eq_true hr, ih]

theorem score_results_single (results : List CandidateResult) (r : CandidateResult)
    (hv : results.filter (fun x => x.ok) = [r]) :
    (_score_results results).filter (fun x => x.ok)
      = [{ r with total_score :=
            0.50 * (r.speed_raw / py_or_one r.speed_raw)
              + 0.35 * (r.smoothness_raw / py_or_one r.smoothness_raw)
              + 0.15 * (r.margin_raw / py_or_one r.margin_raw) }] := by
  unfold _score_results
  rw [hv]
  dsimp only
  rw [if_neg (by simp)]
  rw [filter_ok_map results
    (fun x => { x with total_score :=
      0.50 * (x.speed_raw / py_or_one (py_max_list ([r].map (fun y => y.speed_raw))))
        + 0.35 * (x.smoothness_raw / py_or_one (py_max_list ([r].map (fun y => y.smoothness_raw))))
        + 0.15 * (x.margin_raw / py_or_one (py_max_list ([r].map (fun y => y.margin_raw)))) })
    (fun x => rfl), hv]
  rfl

theorem div_py_or_one (x : ℚ) : x / py_or_one x = if x = 0 then 0 else 1 := by
  unfold py_or_one
  by_cases h : x = 0
  · simp [h]
  · simp [h, div_self h]

theorem calib_branch_snd (b1 b2 : Bool) (rep : CalibReport) :
    ((if b1 then (if b2 then ((0:ℤ), some rep) else (1, some rep)) else (0, some rep))
      : ℤ × Option CalibReport).2 = some rep := by
  cases b1 <;> cases b2 <;> rfl

theorem single_ok_run_filter :
    (calib_results single_ok_env single_ok_params).filter (fun x => x.ok)
      = [center_a_empty_result] := by
  have henum : CANDIDATE_CENTERS.enum
      = [(0, ("center_a", [0, -20, -35, 0, 100, -45])),
         (1, ("center_b", [0, -17, -28, 0, 75, -45])),
         (2, ("center_c", [0, -26, -44, 0, 106, -45])),
         (3, ("center_d", [0, -18, -52, 0, 110, -45]))] := rfl
  have hA : calib_candidate_result single_ok_env.pstdev_of single_ok_params.sweep_delta_j1
      "center_a" [0, -20, -35, 0, 100, -45] (single_ok_env.benchmarks 0)
      = center_a_empty_result := by
    have hb : single_ok_env.benchmarks 0 = (true, "ok", []) := rfl
    have hd : single_ok_params.sweep_delta_j1 = 360 := rfl
    rw [hb, hd]
    unfold calib_candidate_result
    dsimp only
    rw [if_neg (by simp)]
    unfold center_a_empty_result
    rw [margin_center_a]
  have hokB : ∀ i, i ≠ 0 → (single_ok_env.benchmarks i).1 = false := by
    intro i hi
    simp [single_ok_env, hi]
  unfold calib_results
  rw [henum]
  simp only [List.map_cons, List.map_nil]
  rw [hA]
  simp only [List.filter_cons, List.filter_nil]
  rw [calib_candidate_result_ok, calib_candidate_result_ok, calib_candidate_result_ok,
    hokB 1 (by norm_num), hokB 2 (by norm_num), hokB 3 (by norm_num)]
  rfl

/-- C6 (counterexample): a reachable calibration run (sweep delta 360°, zero
timed segments as with `--cycles 0`) in which exactly `center_a` is marked
ok: `center_a` IS selected as best, but its normalized sub-scores are 0, not
1.0, and its total score is 0, not 1.0 — the `or 1.0` divisor guard maps a
zero raw metric to a 0 sub-score. -/
theorem calib_single_ok_counterexample :
    (calib_main single_ok_env single_ok_params).2.map
        (fun rep => (rep.best_candidate.name, rep.best_candidate.total_score))
      = some ("center_a", 0)
    ∧ ((0:ℚ) ≠ 1) := by
  constructor
  · unfold calib_main
    rw [show single_ok_env.ping_ok = true from rfl,
      show single_ok_params.execute = true from rfl,
      show single_ok_env.arm_connect_ok = true from rfl,
      show single_ok_env.home_move_ok = true from rfl]
    simp only [Bool.not_true, Bool.false_eq_true, if_false]
    rw [score_results_single _ center_a_empty_result single_ok_run_filter]
    simp only [py_max_by, List.foldl_nil]
    rw [calib_branch_snd]
    simp only [Option.map_some']
    refine congrArg some ?_
    refine Prod.ext rfl ?_
    show (0.50 * ((0:ℚ) / py_or_one 0) + 0.35 * ((0:ℚ) / py_or_one 0)
      + 0.15 * ((0:ℚ) / py_or_one 0)) = 0
    norm_num [py_or_one]
  · norm_num

/-- C6 (amended): in any calibration run reaching the candidate loop in which
exactly one candidate is marked ok, that candidate is selected as best
regardless of its absolute raw metric values; normalization against itself
yields sub-score 1.0 for each raw metric that is nonzero and 0 for a raw
metric equal to 0 (the zero maximum is replaced by the divisor 1.0), so the
total score is 0.50 + 0.35 + 0.15 = 1.0 exactly when all three raw metrics
are nonzero. -/
theorem calib_single_ok (env : CalibEnv) (p : CalibParams) (r : CandidateResult)
    (h1 : env.ping_ok = true) (h2 : p.execute = true)
    (h3 : env.arm_connect_ok = true) (h4 : env.home_move_ok = true)
    (hv : (calib_results env p).filter (fun x => x.ok) = [r]) :
    (calib_main env p).2.map (fun rep => rep.best_candidate)
      = some { r with total_score :=
          0.50 * (if r.speed_raw = 0 then 0 else 1)
            + 0.35 * (if r.smoothness_raw = 0 then 0 else 1)
            + 0.15 * (if r.margin_raw = 0 then 0 else 1) } := by
  unfold calib_main
  rw [h1, h2, h3, h4]
  simp only [Bool.not_true, Bool.false_eq_true, if_false]
  rw [score_results_single (calib_results env p) r hv]
  simp only [py_max_by, List.foldl_nil]
  rw [calib_branch_snd]
  simp only [Option.map_some']
  refine congrArg some ?_
  rw [div_py_or_one, div_py_or_one, div_py_or_one]

/-- C6 (witness): the single-ok run selects `center_a` as best, its total
score given by the zero-guarded normalization formula. -/
theorem calib_single_ok_witness :
    (calib_main single_ok_env single_ok_params).2.map (fun rep => rep.best_candidate)
      = some { center_a_empty_result with total_score :=
          0.50 * (if center_a_empty_result.speed_raw = 0 then 0 else 1)
            + 0.35 * (if center_a_empty_result.smoothness_raw = 0 then 0 else 1)
            + 0.15 * (if center_a_empty_result.margin_raw = 0 then 0 else 1) } :=
  calib_single_ok single_ok_env single_ok_params center_a_empty_result rfl rfl rfl rfl
    single_ok_run_filter

theorem py_listcomp_isSome {α β : Type} (f : α → Option β) (l : List α) :
    (py_listcomp f l).isSome = true ↔ ∀ x ∈ l, (f x).isSome = true := by
  induction l with
  | nil => simp [py_listcomp]
  | cons x xs ih =>
    cases hfx : f x with
    | none =>
      constructor
      · intro h
        simp [py_listcomp, hfx] at h
      · intro h
        have hx := h x (by simp)
        rw [hfx] at hx
        simp at hx
    | some y =>
      cases hpl : py_listcomp f xs with
      | none =>
        constructor
        · intro h
          simp [py_listcomp, hfx, hpl] at h
        · intro h
          have hxs : ∀ a ∈ xs, (f a).isSome = true := fun a ha => h a (by simp [ha])
          rw [← ih, hpl] at hxs
          simp at hxs
      | some ys =>
        constructor
        · intro _ a ha
          rcases List.mem_cons.mp ha with h | h
          · rw [h, hfx]
            rfl
          · exact (ih.mp (by rw [hpl]; rfl)) a h
        · intro _
          simp [py_listcomp, hfx, hpl]

theorem py_listcomp_values {α β : Type} (f : α → Option β) (P : β → Prop) :
    ∀ (l : List α) (ys : List β), py_listcomp f l = some ys →
      ((∀ y ∈ ys, P y) ↔ (∀ x ∈ l, ∀ y, f x = some y → P y)) := by
  intro l
  induction l with
  | nil =>
    intro ys h
    simp [py_listcomp] at h
    subst h
    simp
  | cons x xs ih =>
    intro ys h
    cases hfx : f x with
    | none => simp [py_listcomp, hfx] at h
    | some y0 =>
      cases hpl : py_listcomp f xs with
      | none => simp [py_listcomp, hfx, hpl] at h
      | some ys0 =>
        have hys : ys = y0 :: ys0 := by
          simp [py_listcomp, hfx, hpl] at h
          exact h.symm
        subst hys
        constructor
        · intro hy a ha y hfy
          rcases List.mem_cons.mp ha with h' | h'
          · subst h'
            rw [hfx] at hfy
            cases hfy
            exact hy _ (by simp)
          · exact ((ih ys0 hpl).mp (fun z hz => hy z (by simp [hz]))) a h' y hfy
        · intro hx y hy
          rcases List.mem_cons.mp hy with h' | h'
          · subst h'
            exact hx x (by simp) _ hfx
          · exact (ih ys0 hpl).mpr (fun a ha z hz => hx a (by simp [ha]) z hz) y h'

/-- C9 (counterexample): the input `"3,3,3,3"` — four comma-separated
integers in [0,5] that are NOT distinct — is accepted by
`_parse_finger_indices`, so parsing does not require distinctness. -/
theorem finger_parsing_counterexample :
    _parse_finger_indices repeated_fingers_input = some [3, 3, 3, 3]
    ∧ claimed_finger_input repeated_fingers_input = false := by
  constructor <;> decide

/-- C9 (amended): `_parse_finger_indices` succeeds iff, after splitting on
commas, stripping whitespace and dropping empty fields, exactly 4 fields
remain, each an integer literal with value in [0,5] (distinctness is NOT
required); `_parse_joint_targets` succeeds iff exactly 6 such fields remain,
each a numeric literal.  Both raise `ValueError` (modelled `none`) otherwise. -/
theorem parsing_spec (s : List Char) :
    ((_parse_finger_indices s).isSome = true ↔
      ((split_fields s).length = 4
        ∧ ∀ p ∈ split_fields s, ∃ v, pyIntOfStr p = some v ∧ 0 ≤ v ∧ v ≤ 5))
    ∧ ((_parse_joint_targets s).isSome = true ↔
      ((split_fields s).length = 6
        ∧ ∀ p ∈ split_fields s, (pyFloatOfStr p).isSome = true)) := by
  constructor
  · unfold _parse_finger_indices
    dsimp only
    by_cases hlen : (split_fields s).length = 4
    · rw [if_neg (by omega)]
      cases hpl : py_listcomp pyIntOfStr (split_fields s) with
      | none =>
        simp only [Option.isSome_none, Bool.false_eq_true, false_iff]
        rintro ⟨-, hall⟩
        have hs : (py_listcomp pyIntOfStr (split_fields s)).isSome = true :=
          (py_listcomp_isSome pyIntOfStr (split_fields s)).mpr
            (fun p hp => by obtain ⟨v, hv, -, -⟩ := hall p hp; rw [hv]; rfl)
        rw [hpl] at hs
        simp at hs
      | some values =>
        have hvals := py_listcomp_values pyIntOfStr (fun v => 0 ≤ v ∧ v ≤ 5)
          (split_fields s) values hpl
        dsimp only
        by_cases hbad : values.any (fun v => v < 0 || 5 < v) = true
        · rw [if_pos hbad]
          simp only [Option.isSome_none, Bool.false_eq_true, false_iff]
          rintro ⟨-, hall⟩
          obtain ⟨v, hv, hlow⟩ := List.any_eq_true.mp hbad
          have hrange : 0 ≤ v ∧ v ≤ 5 := by
            refine (hvals.mpr ?_) v hv
            intro p hp y hy
            obtain ⟨w, hw, h0, h5⟩ := hall p hp
            rw [hw] at hy
            cases hy
            exact ⟨h0, h5⟩
          simp only [Bool.or_eq_true, decide_eq_true_eq] at hlow
          rcases hlow with h | h
          · exact absurd hrange.1 (by omega)
          · exact absurd hrange.2 (by omega)
        · rw [if_neg hbad]
          simp only [Option.isSome_some, true_iff]
          refine ⟨hlen, ?_⟩
          intro p hp
          have hsome : (pyIntOfStr p).isSome = true :=
            (py_listcomp_isSome pyIntOfStr (split_fields s)).mp (by rw [hpl]; rfl) p hp
          obtain ⟨v, hv⟩ := Option.isSome_iff_exists.mp hsome
          refine ⟨v, hv, ?_⟩
          have hin : ∀ y ∈ values, 0 ≤ y ∧ y ≤ 5 := by
            intro y hy
            have hfy := List.any_eq_false.mp ((Bool.not_eq_true _).mp hbad) y hy
            simp at hfy
            omega
          exact (hvals.mp hin) p hp v hv
    · rw [if_pos (by omega)]
      simp only [Option.isSome_none, Bool.false_eq_true, false_iff]
      rintro ⟨h, -⟩
      exact hlen h
  · unfold _parse_joint_targets
    dsimp only
    by_cases hlen : (split_fields s).length = 6
    · rw [if_neg (by omega)]
      rw [py_listcomp_isSome pyFloatOfStr (split_fields s)]
      exact ⟨fun h => ⟨hlen, h⟩, fun h => h.2⟩
    · rw [if_pos (by omega)]
      simp only [Option.isSome_none, Bool.false_eq_true, false_iff]
      rintro ⟨h, -⟩
      exact hlen h

/-- C9 (witness): the default play-center flag value parses as a JointPose
(6 numeric fields). -/
theorem parsing_spec_witness : (_parse_joint_targets center_joints_input).isSome = true :=
  (parsing_spec center_joints_input).2.mpr ⟨by decide, by decide⟩

/-- C10 (counterexample): with the hand connected and a transport whose first
register write raises but whose fallback write at the halved address
succeeds, `move_single_motor` with in-range index 2 issues TWO combined
register writes (at byte-style address 1486 and register-style address 743),
not exactly one, and still returns success. -/
theorem move_single_motor_counterexample :
    ((move_single_motor fallback_write_env 0 2 500 65535).2.2).length = 2
    ∧ (move_single_motor fallback_write_env 0 2 500 65535).1 = true := by
  decide

theorem single_motor_cmd_normalized (idx target : ℤ) (h0 : 0 ≤ idx) (h6 : idx < 6) :
    ((List.replicate 6 ((65535:ℤ) % 65536)).set idx.toNat (target % 65536)).map
        (fun v => v % 65536)
      = single_motor_regs idx target := by
  have hr : List.range 6 = [0, 1, 2, 3, 4, 5] := rfl
  have hm : ((65535:ℤ) % 65536) = 65535 := by decide
  have ht : target % 65536 % 65536 = target % 65536 :=
    Int.emod_emod_of_dvd target dvd_rfl
  interval_cases idx <;>
    simp [single_motor_regs, hr, hm, ht, List.set]

/-- C10 (amended): for an in-range `motor_index` with the hand connected,
every register write `move_single_motor` issues is a combined 6-slot write
whose slot at `motor_index` holds `target & 0xFFFF` and whose other five
slots hold the no-action sentinel `0xFFFF` (so the command leaves the other
five motors' targets unchanged), addressed at 1486 or the fallback 743;
exactly one such write is issued when the first transport attempt succeeds,
and a second fallback write with the same image is attempted when it fails.
For `motor_index` outside [0,5], or with no connection established, it
returns false without issuing any register write. -/
theorem move_single_motor_spec (env : ModbusEnv) (attempt : ℕ) (idx target na : ℤ)
    (hna : na = 65535) :
    ((idx < 0 ∨ 6 ≤ idx) →
        move_single_motor env attempt idx target na = (false, attempt, []))
    ∧ (env.connected = false → 0 ≤ idx → idx < 6 →
        move_single_motor env attempt idx target na = (false, attempt, []))
    ∧ (env.connected = true → 0 ≤ idx → idx < 6 →
        (∀ w ∈ (move_single_motor env attempt idx target na).2.2,
            w.2 = single_motor_regs idx target ∧ (w.1 = 1486 ∨ w.1 = 743))
        ∧ (env.write_ok attempt 1486 = true →
            move_single_motor env attempt idx target na
              = (true, attempt + 1, [(1486, single_motor_regs idx target)]))
        ∧ (env.write_ok attempt 1486 = false →
            (move_single_motor env attempt idx target na).2.2
              = [(1486, single_motor_regs idx target),
                 (743, single_motor_regs idx target)]
            ∧ (move_single_motor env attempt idx target na).1
              = env.write_ok (attempt + 1) 743)) := by
  subst hna
  refine ⟨?_, ?_, ?_⟩
  · intro h
    unfold move_single_motor
    rw [if_pos h]
  · intro hc h0 h6
    unfold move_single_motor set_motor_targets _write_registers_with_fallback
    rw [if_neg (by omega)]
    dsimp only
    rw [if_neg (by simp), hc]
    rfl
  · intro hc h0 h6
    have hred : move_single_motor env attempt idx target 65535
        = (if env.write_ok attempt 1486 then
             (true, attempt + 1, [((1486:ℤ), single_motor_regs idx target)])
           else if env.write_ok (attempt + 1) 743 then
             (true, attempt + 2, [((1486:ℤ), single_motor_regs idx target),
               ((743:ℤ), single_motor_regs idx target)])
           else
             (false, attempt + 2, [((1486:ℤ), single_motor_regs idx target),
               ((743:ℤ), single_motor_regs idx target)])) := by
      unfold move_single_motor set_motor_targets _write_registers_with_fallback
      rw [if_neg (by omega)]
      dsimp only
      rw [if_neg (by simp), hc]
      rw [show _address_candidates 1486 = (1486, 743) from by decide]
      rw [single_motor_cmd_normalized idx target h0 h6]
      simp
    refine ⟨?_, ?_, ?_⟩
    · intro w hw
      rw [hred] at hw
      by_cases h1 : env.write_ok attempt 1486 = true
      · rw [if_pos h1] at hw
        simp only [List.mem_cons, List.not_mem_nil, or_false, List.mem_singleton] at hw
        subst hw
        exact ⟨rfl, Or.inl rfl⟩
      · rw [if_neg h1] at hw
        by_cases h2 : env.write_ok (attempt + 1) 743 = true
        · rw [if_pos h2] at hw
          rcases List.mem_cons.mp hw with h | h
          · subst h
            exact ⟨rfl, Or.inl rfl⟩
          · rcases List.mem_cons.mp h with h' | h'
            · subst h'
              exact ⟨rfl, Or.inr rfl⟩
            · cases h'
        · rw [if_neg h2] at hw
          rcases List.mem_cons.mp hw with h | h
          · subst h
            exact ⟨rfl, Or.inl rfl⟩
          · rcases List.mem_cons.mp h with h' | h'
            · subst h'
              exact ⟨rfl, Or.inr rfl⟩
            · cases h'
    · intro h1
      rw [hred, if_pos h1]
    · intro h1
      rw [hred, if_neg (by rw [h1]; exact Bool.false_ne_true)]
      by_cases h2 : env.write_ok (attempt + 1) 743 = true
      · rw [if_pos h2, h2]
        exact ⟨rfl, rfl⟩
      · rw [if_neg h2, (Bool.not_eq_true _).mp h2]
        exact ⟨rfl, rfl⟩

/-- C10 (witness): with the hand connected and a healthy transport, moving
motor 2 to 500 issues exactly the single combined write
`(1486, [65535, 65535, 500, 65535, 65535, 65535])`. -/
theorem move_single_motor_spec_witness :
    move_single_motor ⟨true, fun _ _ => true⟩ 0 2 500 65535
      = (true, 1, [(1486, single_motor_regs 2 500)]) :=
  (move_single_motor_spec ⟨true, fun _ _ => true⟩ 0 2 500 65535 rfl).2.2
    rfl (by decide) (by decide) |>.2.1 rfl

end CodexPianist
